import Mathlib

/-!
Verification of the Tables_Generator repository (`src/main.py`).

The program is a content-generation utility: for a sweep of row/column
counts and a filling mode it generates a table of cell strings, renders a
LaTeX document for it by placeholder substitution in fixed templates, and
writes a PDF and a CSV with the same data.

Shallow embedding conventions used below:
* `lorem.sentence()` / `lorem.paragraph()` are unseeded text generators;
  they are modelled as an input stream `Nat → String` together with a call
  counter, so the k-th call of the run returns `stream k`.
* `int(time.time())` is the current Unix time truncated to whole seconds;
  under the hypothesis that the clock is non-negative it is modelled as an
  input stream `Nat → Nat` (the k-th call returns `clock k`).
* Python `str.replace` (replace every non-overlapping occurrence, scanning
  left to right, never rescanning the replacement text) is modelled
  faithfully by `pyReplace` below.
* Python `'sep'.join(xs)` is `pyJoin sep xs`; Python string repetition
  `s * n` is `strRepeat s n`.
* Python `csv.writer(f, quotechar='|', quoting=csv.QUOTE_MINIMAL)` with the
  default comma delimiter and `\r\n` line terminator is modelled by
  `writeCSV`; the matching CSV parse (the spec's round-trip reading
  direction) is the automaton `parseCSV`.
* A curly brace inside a string literal is written with the `\x7b` / `\x7d`
  escapes; the character content is identical to the Python source.
-/

set_option maxRecDepth 8192

namespace TablesGen

/-- Python string repetition `s * n` (for a non-negative count). -/
def strRepeat (s : String) : Nat → String
  | 0 => ""
  | n + 1 => s ++ strRepeat s n

/-- Concatenation of a list of strings with no separator. -/
def strConcat : List String → String
  | [] => ""
  | s :: rest => s ++ strConcat rest

/-- Python `sep.join(xs)`. -/
def pyJoin (sep : String) : List String → String
  | [] => ""
  | [x] => x
  | x :: y :: rest => x ++ sep ++ pyJoin sep (y :: rest)

/-! ### Constants of `src/main.py` (lines 16-36) -/

def ROW_COUNT_MIN : Nat := 2
def ROW_COUNT_MAX : Nat := 10
def COLUMNS_COUNT_MIN : Nat := 2
def COLUMNS_COUNT_MAX : Nat := 8

def COLUMN_DELIMITER : String := "|"
def COLUMN_SEPARATOR : String := "&"
def NEW_ROW_SYMBOL : String := "\\\\"
def TEXT_IN_CELL_ORIENTATION : String := "l"
def TABLE_HORIZONTAL_LINE : String := "\\hline"

def TEXT_BEFORE_TABLE : String := "_TEXT_BEFORE_TABLE"
def TEXT_AFTER_TABLE : String := "_TEXT_AFTER_TABLE"
def TABLE : String := "_THE_TABLE_"
def TABLE_SCHEMA : String := "_TABLE_SCHEMA"
def TABLE_ROWS_LIST : String := "_TABLE_ROWS_LIST"
def TABLE_TITLE : String := "_TABLE_TITLE"

def DIRECTORY_NAME : String := "tables"

/-! ### The fixed templates (`src/main.py` lines 38-68)

Both patterns are literal concatenations in the source; the pieces around
each placeholder are named so that the substitution theorems can speak
about them. -/

/-- Document template text before the `_TEXT_BEFORE_TABLE` placeholder. -/
def docPre : String :=
  "\\documentclass\x7barticle\x7d\n\\usepackage[a4paper, portrait, margin=1in]\x7bgeometry\x7d\n\\usepackage[utf8x]\x7binputenc\x7d\n\\usepackage\x7btabularx\x7d\n\\begin\x7bdocument\x7d\n"

/-- Document template text between `_TEXT_BEFORE_TABLE` and `_THE_TABLE_`. -/
def docMid1 : String := "\n\n"

/-- Document template text between `_THE_TABLE_` and `_TEXT_AFTER_TABLE`. -/
def docMid2 : String := "\n"

/-- Document template text after the `_TEXT_AFTER_TABLE` placeholder. -/
def docSuf : String := "\n\\end\x7bdocument\x7d"

def TEX_DOCUMENT_PATTERN : String :=
  docPre ++ TEXT_BEFORE_TABLE ++ docMid1 ++ TABLE ++ docMid2 ++ TEXT_AFTER_TABLE ++ docSuf

/-- Table template text before the `_TABLE_SCHEMA` placeholder. -/
def tabPre : String := "\\begin\x7btabular\x7d\x7b"

/-- Table template text between `_TABLE_SCHEMA` and `_TABLE_TITLE`. -/
def tabMid1 : String := "\x7d\n\\hline\n"

/-- Table template text between `_TABLE_TITLE` and `_TABLE_ROWS_LIST`:
the title row's terminator (note: no leading space before `\\`). -/
def tabMid2 : String := "\\\\ \\hline\n"

/-- The row terminator sequence: line-break token and horizontal-rule token. -/
def rowTerm : String := " " ++ NEW_ROW_SYMBOL ++ " " ++ TABLE_HORIZONTAL_LINE

/-- Table template text after the `_TABLE_ROWS_LIST` placeholder: the last
row's terminator followed by the end of the tabular environment. -/
def tabSuf : String := rowTerm ++ "\n" ++ "\\end\x7btabular\x7d\n"

def TEX_TABLE_PATTERN : String :=
  tabPre ++ TABLE_SCHEMA ++ tabMid1 ++ TABLE_TITLE ++ tabMid2 ++ TABLE_ROWS_LIST ++ tabSuf

/-! ### The pure generator functions (`src/main.py` lines 83-113) -/

/-- `get_schema` (line 83): `('|' + text_position) * number_of_columns + '|'`. -/
def get_schema (number_of_columns : Nat) (text_position : String := "l") : String :=
  strRepeat ("|" ++ text_position) number_of_columns ++ "|"

/-- `get_text` (line 93): `lorem.sentence() * number_of_sentences`.
The single call `lorem.sentence()` reads the stream at the current call
counter `k`; Python's `*` then repeats that one string.  The pair returned
is (result, new call counter). -/
def get_text (number_of_sentences : Nat) (stream : Nat → String) (k : Nat) : String × Nat :=
  (strRepeat (stream k) number_of_sentences, k + 1)

/-- Modelled from the spec: the spec's reading of `get_text` ("when `n > 1`,
concatenate `n` independently generated sentences with no separator"), for
comparison with the source's behaviour. -/
def get_text_indep (number_of_sentences : Nat) (stream : Nat → String) (k : Nat) :
    String × Nat :=
  (strConcat ((List.range number_of_sentences).map (fun i => stream (k + i))),
   k + number_of_sentences)

/-- `get_table_title` (line 97). -/
def get_table_title (number_of_columns : Nat) (title_generic_name : String := "title") :
    List String :=
  (List.range number_of_columns).map (fun i => title_generic_name ++ toString i)

/-- `generate_data` (line 101).  Cells are generated row by row, column by
column; the cell at row `r`, column `c` is the `(r * number_of_columns + c)`-th
call of the active generator (`lorem.sentence()` when `filling_is_sentences`,
otherwise `str(int(time.time()))`). -/
def generate_data (number_of_rows number_of_columns : Nat) (filling_is_sentences : Bool)
    (sentence_stream : Nat → String) (clock_stream : Nat → Nat) : List (List String) :=
  (List.range number_of_rows).map (fun r =>
    (List.range number_of_columns).map (fun c =>
      if filling_is_sentences then sentence_stream (r * number_of_columns + c)
      else toString (clock_stream (r * number_of_columns + c))))

/-! ### Basic lemmas about the string helpers -/

theorem strRepeat_eq_concat_replicate (s : String) (n : Nat) :
    strRepeat s n = strConcat (List.replicate n s) := by
  induction n with
  | zero => rfl
  | succ n ih => simp [strRepeat, List.replicate, strConcat, ih]

/-- Joining with `term ++ nl` and appending a final `term ++ r` is the same
as terminating every element with `term` and joining with `nl` (and then
appending `r`): every element, the last one included, ends in `term`. -/
theorem pyJoin_term (term nl r : String) :
    ∀ xs : List String, xs ≠ [] →
      pyJoin (term ++ nl) xs ++ (term ++ r) =
        pyJoin nl (xs.map (fun l => l ++ term)) ++ r
  | [], h => absurd rfl h
  | [x], _ => by simp [pyJoin, String.append_assoc]
  | x :: y :: rest, _ => by
    have ih := pyJoin_term term nl r (y :: rest) (by simp)
    simp only [pyJoin, List.map]
    rw [String.append_assoc, String.append_assoc, ih]
    simp [String.append_assoc]

/-! ### Python `str.replace`

`str.replace(old, new)` scans left to right, replaces each non-overlapping
occurrence of `old`, and never rescans the inserted replacement text.
`replaceCore` is that scan for a non-empty pattern `p :: ps`. -/

def replaceCore (p : Char) (ps rep : List Char) : List Char → List Char
  | [] => []
  | c :: rest =>
    if (p :: ps).isPrefixOf (c :: rest) then
      rep ++ replaceCore p ps rep (rest.drop ps.length)
    else
      c :: replaceCore p ps rep rest
termination_by s => s.length
decreasing_by
  · simp [List.length_drop]; omega
  · simp

/-- Full replacement on character lists; an empty pattern inserts the
replacement before every character and at the end, as Python does. -/
def pyReplaceData (pat rep s : List Char) : List Char :=
  match pat with
  | [] => rep ++ s.flatMap (fun c => c :: rep)
  | p :: ps => replaceCore p ps rep s

/-- Python `s.replace(old, new)`. -/
def pyReplace (s old new : String) : String :=
  ⟨pyReplaceData old.data new.data s.data⟩

/-- No occurrence of `pat` starts at any position of `s`. -/
def noOccur (pat s : List Char) : Bool :=
  (List.range (s.length + 1)).all (fun i => !(pat.isPrefixOf (s.drop i)))

/-- No occurrence of `pat` starts strictly before position `pre.length`
in any string of the form `pre ++ pat ++ rest` (a match starting there
would lie entirely inside `pre ++ pat`, so `rest` is irrelevant). -/
def noEarlyMatch (pat pre : List Char) : Bool :=
  (List.range pre.length).all (fun i => !(pat.isPrefixOf ((pre ++ pat).drop i)))

theorem isPrefixOf_append_self (l t : List Char) : l.isPrefixOf (l ++ t) = true := by
  induction l with
  | nil => simp
  | cons a as ih => simp [List.isPrefixOf, ih]

theorem isPrefixOf_append_of_le (pat X Y : List Char) (h : pat.length ≤ X.length) :
    pat.isPrefixOf (X ++ Y) = pat.isPrefixOf X := by
  induction pat generalizing X with
  | nil => simp
  | cons a as ih =>
    cases X with
    | nil => simp at h
    | cons x xs =>
      simp only [List.cons_append, List.isPrefixOf, List.append_eq]
      rw [ih xs (by simpa using h)]

theorem noOccur_head {pat : List Char} {c : Char} {rest : List Char}
    (h : noOccur pat (c :: rest) = true) : pat.isPrefixOf (c :: rest) = false := by
  simp only [noOccur, List.all_eq_true, List.mem_range] at h
  simpa using h 0 (by omega)

theorem noOccur_tail {pat : List Char} {c : Char} {rest : List Char}
    (h : noOccur pat (c :: rest) = true) : noOccur pat rest = true := by
  simp only [noOccur, List.all_eq_true, List.mem_range] at h ⊢
  intro i hi
  have := h (i + 1) (by simpa using hi)
  simpa using this

theorem replaceCore_of_noOccur (p : Char) (ps rep : List Char) :
    ∀ s : List Char, noOccur (p :: ps) s = true → replaceCore p ps rep s = s := by
  intro s
  induction s with
  | nil => intro _; simp [replaceCore]
  | cons c rest ih =>
    intro h
    rw [replaceCore]
    rw [noOccur_head h]
    simp [ih (noOccur_tail h)]

theorem noEarlyMatch_head {pat pre' rest : List Char} {c : Char}
    (h : noEarlyMatch pat (c :: pre') = true) :
    pat.isPrefixOf (c :: pre' ++ pat ++ rest) = false := by
  simp only [noEarlyMatch, List.all_eq_true, List.mem_range] at h
  have h0 : pat.isPrefixOf (((c :: pre') ++ pat).drop 0) = false := by
    simpa using h 0 (by simp)
  simp only [List.drop_zero] at h0
  have hlen : pat.length ≤ ((c :: pre') ++ pat).length := by
    simp only [List.length_append, List.length_cons]
    omega
  calc pat.isPrefixOf (c :: pre' ++ pat ++ rest)
      = pat.isPrefixOf (((c :: pre') ++ pat) ++ rest) := by simp
    _ = pat.isPrefixOf ((c :: pre') ++ pat) := isPrefixOf_append_of_le _ _ _ hlen
    _ = false := h0

theorem noEarlyMatch_tail {pat pre' : List Char} {c : Char}
    (h : noEarlyMatch pat (c :: pre') = true) : noEarlyMatch pat pre' = true := by
  simp only [noEarlyMatch, List.all_eq_true, List.mem_range] at h ⊢
  intro i hi
  have := h (i + 1) (by simp [Nat.succ_lt_succ hi])
  simpa using this

/-- The splice lemma: replacing a non-empty pattern in `pre ++ pat ++ rest`,
when no occurrence starts inside `pre`, substitutes at the marked position
and continues in `rest` only. -/
theorem replaceCore_splice (p : Char) (ps rep : List Char) :
    ∀ pre rest : List Char, noEarlyMatch (p :: ps) pre = true →
      replaceCore p ps rep (pre ++ (p :: (ps ++ rest))) =
        pre ++ (rep ++ replaceCore p ps rep rest) := by
  intro pre
  induction pre with
  | nil =>
    intro rest _
    simp only [List.nil_append]
    rw [replaceCore]
    have hpref : (p :: ps).isPrefixOf (p :: (ps ++ rest)) = true :=
      isPrefixOf_append_self (p :: ps) rest
    rw [hpref]
    simp [List.drop_left]
  | cons c pre' ih =>
    intro rest h
    have hne : (p :: ps).isPrefixOf (c :: (pre' ++ p :: (ps ++ rest))) = false := by
      have h2 := @noEarlyMatch_head (p :: ps) pre' rest c h
      simpa only [List.cons_append, List.append_assoc] using h2
    simp only [List.cons_append]
    rw [replaceCore]
    rw [hne]
    simp only [Bool.false_eq_true, if_false]
    rw [ih rest (noEarlyMatch_tail h)]

theorem string_ext {a b : String} (h : a.data = b.data) : a = b := by
  cases a; cases b; exact congrArg String.mk h

/-- String-level splice: `(pre ++ old ++ post).replace(old, rep) = pre ++ rep ++ post`
when no occurrence of `old` starts inside `pre` and none occurs in `post`. -/
theorem pyReplace_splice (pre old rep post : String) (hne : old.data ≠ [])
    (hpre : noEarlyMatch old.data pre.data = true)
    (hpost : noOccur old.data post.data = true) :
    pyReplace (pre ++ old ++ post) old rep = pre ++ rep ++ post := by
  apply string_ext
  obtain ⟨p, ps, hd⟩ : ∃ p ps, old.data = p :: ps := by
    cases h : old.data with
    | nil => exact absurd h hne
    | cons p ps => exact ⟨p, ps, rfl⟩
  rw [hd] at hpre hpost
  simp only [pyReplace, String.data_append, hd, pyReplaceData]
  rw [List.append_assoc, List.cons_append]
  rw [replaceCore_splice p ps rep.data pre.data post.data hpre]
  rw [replaceCore_of_noOccur p ps rep.data post.data hpost]
  rw [List.append_assoc]

/-! ### `generate_tex_code` (`src/main.py` lines 116-147)

The local values of the Python function are named top-level definitions so
the theorems can speak about them.  `lorem.paragraph()` is called twice
(text before and after the table); the two paragraphs are inputs here.
The division `int(table_width_cm / number_of_columns)` raises
`ZeroDivisionError` when the title row is empty, so the function returns
`Option String`, `none` on that error. -/

def table_width_cm : Nat := 15

/-- A row (or the title row) joined with `f' {COLUMN_SEPARATOR} '`. -/
def rowLineOf (row : List String) : String :=
  pyJoin (" " ++ COLUMN_SEPARATOR ++ " ") row

/-- The joined rows block: row lines joined with `f' {NEW_ROW_SYMBOL} {TABLE_HORIZONTAL_LINE}\n'`. -/
def texRowsOf (table_data : List (List String)) : String :=
  pyJoin (rowTerm ++ "\n") (table_data.map rowLineOf)

/-- The per-column spec `'p{' + str(int(table_width_cm / number_of_columns)) + 'cm}'`.
For a positive column count Python's float division followed by `int`
truncation equals natural floor division here. -/
def cellSchemaOf (number_of_columns : Nat) : String :=
  "p\x7b" ++ toString (table_width_cm / number_of_columns) ++ "cm\x7d"

/-- The column schema handed to `get_schema`. -/
def schemaOf (number_of_columns : Nat) : String :=
  get_schema number_of_columns (cellSchemaOf number_of_columns)

/-- The three `.replace` calls building `tex_table`. -/
def texTableOf (table_data : List (List String)) (table_title_data : List String) : String :=
  pyReplace
    (pyReplace
      (pyReplace TEX_TABLE_PATTERN TABLE_ROWS_LIST (texRowsOf table_data))
      TABLE_SCHEMA (schemaOf table_title_data.length))
    TABLE_TITLE (rowLineOf table_title_data)

/-- `generate_tex_code`: `none` models the `ZeroDivisionError` raised by
`15 / len(table_title_data)` when the title row is empty. -/
def generate_tex_code (table_data : List (List String)) (table_title_data : List String)
    (text_before text_after : String) : Option String :=
  if table_title_data.length = 0 then none
  else
    some (pyReplace
      (pyReplace
        (pyReplace TEX_DOCUMENT_PATTERN TEXT_BEFORE_TABLE text_before)
        TABLE (texTableOf table_data table_title_data))
      TEXT_AFTER_TABLE text_after)

/-- The table block with all three placeholders substituted, written out. -/
def texTableAssembled (table_data : List (List String)) (table_title_data : List String) :
    String :=
  tabPre ++ schemaOf table_title_data.length ++ tabMid1 ++ rowLineOf table_title_data ++
    tabMid2 ++ texRowsOf table_data ++ tabSuf

/-- Substitution collision freedom: the data spliced into the templates must
not contain text that a later `.replace` call would rewrite.  Every
hypothesis below is decidable and holds for all data the driver actually
generates (lorem text, timestamps and `titleN` labels contain none of the
placeholder tokens). -/
def texCollisionFree (table_data : List (List String)) (table_title_data : List String)
    (text_before : String) : Prop :=
  noOccur TABLE_SCHEMA.data
      (tabMid1.data ++ TABLE_TITLE.data ++ tabMid2.data ++ (texRowsOf table_data).data ++
        tabSuf.data) = true ∧
  noEarlyMatch TABLE_TITLE.data
      (tabPre.data ++ (schemaOf table_title_data.length).data ++ tabMid1.data) = true ∧
  noOccur TABLE_TITLE.data
      (tabMid2.data ++ (texRowsOf table_data).data ++ tabSuf.data) = true ∧
  noEarlyMatch TABLE.data (docPre.data ++ text_before.data ++ docMid1.data) = true ∧
  noEarlyMatch TEXT_AFTER_TABLE.data
      (docPre.data ++ text_before.data ++ docMid1.data ++
        (texTableAssembled table_data table_title_data).data ++ docMid2.data) = true

instance (table_data : List (List String)) (table_title_data : List String)
    (text_before : String) :
    Decidable (texCollisionFree table_data table_title_data text_before) := by
  unfold texCollisionFree
  infer_instance

/-- The table-side `.replace` chain really splices the three values into
their placeholder positions. -/
theorem texTableOf_eq (table_data : List (List String)) (table_title_data : List String)
    (text_before : String)
    (hc : texCollisionFree table_data table_title_data text_before) :
    texTableOf table_data table_title_data =
      texTableAssembled table_data table_title_data := by
  obtain ⟨h2, h3pre, h3post, _, _⟩ := hc
  have e1 : pyReplace TEX_TABLE_PATTERN TABLE_ROWS_LIST (texRowsOf table_data) =
      (tabPre ++ TABLE_SCHEMA ++ tabMid1 ++ TABLE_TITLE ++ tabMid2) ++
        texRowsOf table_data ++ tabSuf := by
    rw [show TEX_TABLE_PATTERN =
        (tabPre ++ TABLE_SCHEMA ++ tabMid1 ++ TABLE_TITLE ++ tabMid2) ++
          TABLE_ROWS_LIST ++ tabSuf by decide]
    exact pyReplace_splice _ _ _ _ (by decide) (by decide) (by decide)
  have e2 : pyReplace
      ((tabPre ++ TABLE_SCHEMA ++ tabMid1 ++ TABLE_TITLE ++ tabMid2) ++
        texRowsOf table_data ++ tabSuf)
      TABLE_SCHEMA (schemaOf table_title_data.length) =
      tabPre ++ schemaOf table_title_data.length ++
        (tabMid1 ++ TABLE_TITLE ++ tabMid2 ++ texRowsOf table_data ++ tabSuf) := by
    rw [show (tabPre ++ TABLE_SCHEMA ++ tabMid1 ++ TABLE_TITLE ++ tabMid2) ++
        texRowsOf table_data ++ tabSuf =
        tabPre ++ TABLE_SCHEMA ++
          (tabMid1 ++ TABLE_TITLE ++ tabMid2 ++ texRowsOf table_data ++ tabSuf) by
      apply string_ext
      simp [List.append_assoc]]
    apply pyReplace_splice _ _ _ _ (by decide) (by decide)
    simpa [List.append_assoc] using h2
  have e3 : pyReplace
      (tabPre ++ schemaOf table_title_data.length ++
        (tabMid1 ++ TABLE_TITLE ++ tabMid2 ++ texRowsOf table_data ++ tabSuf))
      TABLE_TITLE (rowLineOf table_title_data) =
      (tabPre ++ schemaOf table_title_data.length ++ tabMid1) ++
        rowLineOf table_title_data ++
        (tabMid2 ++ texRowsOf table_data ++ tabSuf) := by
    rw [show tabPre ++ schemaOf table_title_data.length ++
        (tabMid1 ++ TABLE_TITLE ++ tabMid2 ++ texRowsOf table_data ++ tabSuf) =
        (tabPre ++ schemaOf table_title_data.length ++ tabMid1) ++ TABLE_TITLE ++
          (tabMid2 ++ texRowsOf table_data ++ tabSuf) by
      apply string_ext
      simp [List.append_assoc]]
    apply pyReplace_splice _ _ _ _ (by decide)
    · simpa [List.append_assoc] using h3pre
    · simpa [List.append_assoc] using h3post
  unfold texTableOf
  rw [e1, e2, e3]
  apply string_ext
  simp [texTableAssembled, List.append_assoc]

/-- Master substitution theorem for `generate_tex_code`: with a non-empty
title row and collision-free data, the generated document is the document
template with the two paragraphs and the fully assembled table block
spliced into their placeholder positions. -/
theorem generate_tex_code_splice (table_data : List (List String))
    (table_title_data : List String) (text_before text_after : String)
    (htitle : table_title_data ≠ [])
    (hc : texCollisionFree table_data table_title_data text_before) :
    generate_tex_code table_data table_title_data text_before text_after =
      some (docPre ++ text_before ++ docMid1 ++
        texTableAssembled table_data table_title_data ++ docMid2 ++ text_after ++ docSuf) := by
  have h5 := hc.2.2.2.1
  have h6 := hc.2.2.2.2
  have e1 : pyReplace TEX_DOCUMENT_PATTERN TEXT_BEFORE_TABLE text_before =
      docPre ++ text_before ++ (docMid1 ++ TABLE ++ docMid2 ++ TEXT_AFTER_TABLE ++ docSuf) := by
    rw [show TEX_DOCUMENT_PATTERN =
        docPre ++ TEXT_BEFORE_TABLE ++
          (docMid1 ++ TABLE ++ docMid2 ++ TEXT_AFTER_TABLE ++ docSuf) by decide]
    exact pyReplace_splice _ _ _ _ (by decide) (by decide) (by decide)
  have e2 : pyReplace
      (docPre ++ text_before ++ (docMid1 ++ TABLE ++ docMid2 ++ TEXT_AFTER_TABLE ++ docSuf))
      TABLE (texTableAssembled table_data table_title_data) =
      (docPre ++ text_before ++ docMid1) ++ texTableAssembled table_data table_title_data ++
        (docMid2 ++ TEXT_AFTER_TABLE ++ docSuf) := by
    rw [show docPre ++ text_before ++
        (docMid1 ++ TABLE ++ docMid2 ++ TEXT_AFTER_TABLE ++ docSuf) =
        (docPre ++ text_before ++ docMid1) ++ TABLE ++
          (docMid2 ++ TEXT_AFTER_TABLE ++ docSuf) by
      apply string_ext
      simp [List.append_assoc]]
    apply pyReplace_splice _ _ _ _ (by decide)
    · simpa [List.append_assoc] using h5
    · decide
  have e3 : pyReplace
      ((docPre ++ text_before ++ docMid1) ++ texTableAssembled table_data table_title_data ++
        (docMid2 ++ TEXT_AFTER_TABLE ++ docSuf))
      TEXT_AFTER_TABLE text_after =
      (docPre ++ text_before ++ docMid1 ++ texTableAssembled table_data table_title_data ++
        docMid2) ++ text_after ++ docSuf := by
    rw [show (docPre ++ text_before ++ docMid1) ++
        texTableAssembled table_data table_title_data ++
        (docMid2 ++ TEXT_AFTER_TABLE ++ docSuf) =
        (docPre ++ text_before ++ docMid1 ++ texTableAssembled table_data table_title_data ++
          docMid2) ++ TEXT_AFTER_TABLE ++ docSuf by
      apply string_ext
      simp [List.append_assoc]]
    apply pyReplace_splice _ _ _ _ (by decide)
    · simpa [List.append_assoc] using h6
    · decide
  have hlen : table_title_data.length ≠ 0 := by
    simpa [List.length_eq_zero] using htitle
  unfold generate_tex_code
  rw [if_neg hlen]
  rw [texTableOf_eq table_data table_title_data text_before hc]
  rw [e1, e2, e3]

/-! ### CSV writing (`src/main.py` lines 172-176)

The driver writes `csv.writer(csv_file, quotechar='|', quoting=csv.QUOTE_MINIMAL)`
records: the title row first, then each table row.  With the default
dialect that means comma delimiter, `\r\n` record terminator (the file is
opened with `newline=''`, so it is written verbatim), minimal quoting (a
field is quoted iff it contains the delimiter, the quote character or a
line-terminator character, or is the lone empty field of its record), and
embedded quote characters are doubled. -/

/-- True iff minimal quoting must quote this field. -/
def needsQuoting (f : String) : Bool :=
  f.data.any (fun c => c = ',' || c = '|' || c = '\r' || c = '\n')

/-- Double every embedded quote character. -/
def escQuote : List Char → List Char
  | [] => []
  | c :: cs => (if c = '|' then ['|', '|'] else [c]) ++ escQuote cs

/-- One encoded field under minimal quoting. -/
def encodeField (f : String) : String :=
  if needsQuoting f then "|" ++ String.mk (escQuote f.data) ++ "|" else f

/-- One encoded record (without the terminator).  A record consisting of a
single empty field is quoted, so that it is not written as a blank line. -/
def encodeRow (r : List String) : String :=
  if r = [""] then "||" else pyJoin "," (r.map encodeField)

/-- The full text of the CSV file the driver writes for one table. -/
def writeCSV (table_title : List String) (table_data : List (List String)) : String :=
  strConcat ((table_title :: table_data).map (fun r => encodeRow r ++ "\r\n"))

/-! ### CSV parsing

Modelled from the spec: "parsing the written `.csv` file yields a header
record equal to the Title Row and data records equal to the Table" — the
reading direction of the round trip, i.e. a standard CSV parse for the
same dialect (comma delimiter, quote character `|`, doubled embedded
quotes, `\r\n` record ends, a blank line being an empty record).  It is a
character automaton. -/

inductive CsvMode where
  | fieldStart
  | unquoted
  | quoted
  | quoteInQuoted
  | crBlank
  | crEnd
deriving DecidableEq

structure CsvState where
  recs : List (List String)
  cur : List String
  field : List Char
  mode : CsvMode
deriving DecidableEq

/-- Close the current record. -/
def endRecord (st : CsvState) (r : List String) : CsvState :=
  { recs := st.recs ++ [r], cur := [], field := [], mode := .fieldStart }

/-- Automaton step at the start of a field. -/
def stepStart (st : CsvState) (c : Char) : CsvState :=
  if c = '|' then { st with mode := .quoted }
  else if c = ',' then { st with cur := st.cur ++ [""], field := [] }
  else if c = '\r' then
    if st.cur = [] then { st with mode := .crBlank }
    else { st with cur := st.cur ++ [""], field := [], mode := .crEnd }
  else if c = '\n' then
    if st.cur = [] then endRecord st [] else endRecord st (st.cur ++ [""])
  else { st with field := [c], mode := .unquoted }

/-- One automaton step. -/
def step (st : CsvState) (c : Char) : CsvState :=
  match st.mode with
  | .fieldStart => stepStart st c
  | .unquoted =>
    if c = ',' then { st with cur := st.cur ++ [String.mk st.field], field := [],
                              mode := .fieldStart }
    else if c = '\r' then { st with cur := st.cur ++ [String.mk st.field], field := [],
                                    mode := .crEnd }
    else if c = '\n' then endRecord st (st.cur ++ [String.mk st.field])
    else { st with field := st.field ++ [c] }
  | .quoted =>
    if c = '|' then { st with mode := .quoteInQuoted }
    else { st with field := st.field ++ [c] }
  | .quoteInQuoted =>
    if c = '|' then { st with field := st.field ++ ['|'], mode := .quoted }
    else if c = ',' then { st with cur := st.cur ++ [String.mk st.field], field := [],
                                   mode := .fieldStart }
    else if c = '\r' then { st with cur := st.cur ++ [String.mk st.field], field := [],
                                    mode := .crEnd }
    else if c = '\n' then endRecord st (st.cur ++ [String.mk st.field])
    else { st with field := st.field ++ [c], mode := .unquoted }
  | .crBlank =>
    if c = '\n' then endRecord st [] else stepStart (endRecord st []) c
  | .crEnd =>
    if c = '\n' then endRecord st st.cur else stepStart (endRecord st st.cur) c

/-- Flush whatever is pending at end of input. -/
def finalizeCsv (st : CsvState) : List (List String) :=
  match st.mode with
  | .fieldStart => if st.cur = [] then st.recs else st.recs ++ [st.cur ++ [""]]
  | .unquoted => st.recs ++ [st.cur ++ [String.mk st.field]]
  | .quoted => st.recs ++ [st.cur ++ [String.mk st.field]]
  | .quoteInQuoted => st.recs ++ [st.cur ++ [String.mk st.field]]
  | .crBlank => st.recs ++ [[]]
  | .crEnd => st.recs ++ [st.cur]

/-- Parse a CSV text into its records. -/
def parseCSV (s : String) : List (List String) :=
  finalizeCsv (s.data.foldl step ⟨[], [], [], .fieldStart⟩)

/-! ### CSV round-trip lemmas -/

theorem mk_data (l : List Char) : (String.mk l).data = l := rfl

theorem data_mk (s : String) : String.mk s.data = s := rfl

theorem comma_data : ("," : String).data = [','] := rfl

theorem crlf_data : ("\r\n" : String).data = ['\r', '\n'] := rfl

theorem pipe_data : ("|" : String).data = ['|'] := rfl

/-- Fields that need no quoting contain none of the special characters. -/
theorem needsQuoting_spec {f : String} (h : needsQuoting f = false) :
    ∀ c ∈ f.data, c ≠ ',' ∧ c ≠ '|' ∧ c ≠ '\r' ∧ c ≠ '\n' := by
  unfold needsQuoting at h
  rw [List.any_eq_false] at h
  intro c hc
  have h2 := h c hc
  simp only [Bool.or_eq_true, decide_eq_true_eq, not_or] at h2
  obtain ⟨⟨⟨ha, hb⟩, hcr⟩, hd⟩ := h2
  exact ⟨ha, hb, hcr, hd⟩

theorem step_start_pipe (recs : List (List String)) (cur : List String) :
    step ⟨recs, cur, [], .fieldStart⟩ '|' = ⟨recs, cur, [], .quoted⟩ := by
  simp [step, stepStart]

theorem step_start_comma (recs : List (List String)) (cur : List String) :
    step ⟨recs, cur, [], .fieldStart⟩ ',' = ⟨recs, cur ++ [""], [], .fieldStart⟩ := by
  simp [step, stepStart]

theorem step_start_cr_blank (recs : List (List String)) :
    step ⟨recs, [], [], .fieldStart⟩ '\r' = ⟨recs, [], [], .crBlank⟩ := by
  simp [step, stepStart]

theorem step_start_cr_flush (recs : List (List String)) (cur : List String) (h : cur ≠ []) :
    step ⟨recs, cur, [], .fieldStart⟩ '\r' = ⟨recs, cur ++ [""], [], .crEnd⟩ := by
  simp [step, stepStart, h]

theorem step_start_other (recs : List (List String)) (cur : List String) (c : Char)
    (h1 : c ≠ '|') (h2 : c ≠ ',') (h3 : c ≠ '\r') (h4 : c ≠ '\n') :
    step ⟨recs, cur, [], .fieldStart⟩ c = ⟨recs, cur, [c], .unquoted⟩ := by
  simp [step, stepStart, h1, h2, h3, h4]

theorem step_unq_comma (recs : List (List String)) (cur : List String) (field : List Char) :
    step ⟨recs, cur, field, .unquoted⟩ ',' =
      ⟨recs, cur ++ [String.mk field], [], .fieldStart⟩ := by
  simp [step]

theorem step_unq_cr (recs : List (List String)) (cur : List String) (field : List Char) :
    step ⟨recs, cur, field, .unquoted⟩ '\r' =
      ⟨recs, cur ++ [String.mk field], [], .crEnd⟩ := by
  simp [step]

theorem step_unq_other (recs : List (List String)) (cur : List String) (field : List Char)
    (c : Char) (h2 : c ≠ ',') (h3 : c ≠ '\r') (h4 : c ≠ '\n') :
    step ⟨recs, cur, field, .unquoted⟩ c = ⟨recs, cur, field ++ [c], .unquoted⟩ := by
  simp [step, h2, h3, h4]

theorem step_quoted_pipe (recs : List (List String)) (cur : List String) (field : List Char) :
    step ⟨recs, cur, field, .quoted⟩ '|' = ⟨recs, cur, field, .quoteInQuoted⟩ := by
  simp [step]

theorem step_quoted_other (recs : List (List String)) (cur : List String) (field : List Char)
    (c : Char) (h : c ≠ '|') :
    step ⟨recs, cur, field, .quoted⟩ c = ⟨recs, cur, field ++ [c], .quoted⟩ := by
  simp [step, h]

theorem step_qq_pipe (recs : List (List String)) (cur : List String) (field : List Char) :
    step ⟨recs, cur, field, .quoteInQuoted⟩ '|' = ⟨recs, cur, field ++ ['|'], .quoted⟩ := by
  simp [step]

theorem step_qq_comma (recs : List (List String)) (cur : List String) (field : List Char) :
    step ⟨recs, cur, field, .quoteInQuoted⟩ ',' =
      ⟨recs, cur ++ [String.mk field], [], .fieldStart⟩ := by
  simp [step]

theorem step_qq_cr (recs : List (List String)) (cur : List String) (field : List Char) :
    step ⟨recs, cur, field, .quoteInQuoted⟩ '\r' =
      ⟨recs, cur ++ [String.mk field], [], .crEnd⟩ := by
  simp [step]

theorem step_crBlank_nl (recs : List (List String)) (cur : List String) (field : List Char) :
    step ⟨recs, cur, field, .crBlank⟩ '\n' = ⟨recs ++ [[]], [], [], .fieldStart⟩ := by
  simp [step, endRecord]

theorem step_crEnd_nl (recs : List (List String)) (cur : List String) (field : List Char) :
    step ⟨recs, cur, field, .crEnd⟩ '\n' = ⟨recs ++ [cur], [], [], .fieldStart⟩ := by
  simp [step, endRecord]

/-- Running the automaton in quoted mode over an escaped text appends
exactly that text to the current field. -/
theorem foldl_escQuote (cs : List Char) : ∀ (recs : List (List String)) (cur : List String)
    (field : List Char),
    List.foldl step ⟨recs, cur, field, .quoted⟩ (escQuote cs) =
      ⟨recs, cur, field ++ cs, .quoted⟩ := by
  induction cs with
  | nil =>
    intro recs cur field
    simp [escQuote]
  | cons c cs ih =>
    intro recs cur field
    by_cases hc : c = '|'
    · subst hc
      show List.foldl step _ ('|' :: '|' :: escQuote cs) = _
      rw [List.foldl_cons, List.foldl_cons, step_quoted_pipe, step_qq_pipe, ih]
      simp
    · show List.foldl step _ ((if c = '|' then ['|', '|'] else [c]) ++ escQuote cs) = _
      rw [if_neg hc]
      simp only [List.cons_append, List.nil_append, List.foldl_cons]
      rw [step_quoted_other recs cur field c hc, ih]
      simp

/-- Running the automaton in unquoted mode over plain text appends it to
the current field. -/
theorem foldl_unquoted (cs : List Char) : ∀ (recs : List (List String)) (cur : List String)
    (field : List Char),
    (∀ c ∈ cs, c ≠ ',' ∧ c ≠ '\r' ∧ c ≠ '\n') →
    List.foldl step ⟨recs, cur, field, .unquoted⟩ cs = ⟨recs, cur, field ++ cs, .unquoted⟩ := by
  induction cs with
  | nil =>
    intro recs cur field _
    simp
  | cons c cs ih =>
    intro recs cur field h
    obtain ⟨h2, h3, h4⟩ := h c (by simp)
    rw [List.foldl_cons, step_unq_other recs cur field c h2 h3 h4,
      ih recs cur (field ++ [c]) (fun x hx => h x (by simp [hx]))]
    simp

/-- Processing one minimally-quoted field followed by a comma flushes that
field into the current record. -/
theorem foldl_encodeField_comma (f : String) (recs : List (List String)) (cur : List String) :
    List.foldl step ⟨recs, cur, [], .fieldStart⟩ ((encodeField f).data ++ [',']) =
      ⟨recs, cur ++ [f], [], .fieldStart⟩ := by
  by_cases hq : needsQuoting f
  · have hdata : (encodeField f).data = '|' :: (escQuote f.data ++ ['|']) := by
      simp [encodeField, hq, String.data_append, pipe_data, mk_data]
    rw [hdata]
    show List.foldl step _ ('|' :: (escQuote f.data ++ ['|']) ++ [',']) = _
    simp only [List.cons_append, List.foldl_cons, List.append_assoc]
    rw [step_start_pipe, List.foldl_append, foldl_escQuote]
    simp only [List.nil_append, List.foldl_cons, List.foldl_nil]
    rw [step_quoted_pipe, step_qq_comma, data_mk]
  · by_cases hf : f = ""
    · subst hf
      show List.foldl step _ [','] = _
      simp only [List.foldl_cons, List.foldl_nil]
      rw [step_start_comma]
    · have hne : f.data ≠ [] := by
        intro hnil
        apply hf
        have : String.mk f.data = String.mk [] := by rw [hnil]
        simpa [data_mk] using this
      obtain ⟨c, cs, hd⟩ : ∃ c cs, f.data = c :: cs := by
        cases h : f.data with
        | nil => exact absurd h hne
        | cons c cs => exact ⟨c, cs, rfl⟩
      have hclean := needsQuoting_spec (by simpa using hq)
      have hc := hclean c (by simp [hd])
      have hdata : (encodeField f).data = c :: cs := by
        simp [encodeField, hq, hd]
      rw [hdata]
      simp only [List.cons_append, List.foldl_cons]
      rw [step_start_other recs cur c hc.2.1 hc.1 hc.2.2.1 hc.2.2.2]
      rw [List.foldl_append]
      rw [foldl_unquoted cs recs cur [c]
        (fun x hx => by
          have := hclean x (by simp [hd, hx])
          exact ⟨this.1, this.2.2.1, this.2.2.2⟩)]
      simp only [List.foldl_cons, List.foldl_nil]
      rw [step_unq_comma]
      have : String.mk ([c] ++ cs) = f := by
        rw [show [c] ++ cs = f.data by simp [hd]]
      rw [this]

/-- Processing the last minimally-quoted field of a record followed by the
record terminator closes the record.  The side condition rules out the one
encoding the writer never emits unquoted: a lone empty field. -/
theorem foldl_encodeField_crlf (f : String) (recs : List (List String)) (cur : List String)
    (h : cur = [] → f ≠ "") :
    List.foldl step ⟨recs, cur, [], .fieldStart⟩ ((encodeField f).data ++ ['\r', '\n']) =
      ⟨recs ++ [cur ++ [f]], [], [], .fieldStart⟩ := by
  by_cases hq : needsQuoting f
  · have hdata : (encodeField f).data = '|' :: (escQuote f.data ++ ['|']) := by
      simp [encodeField, hq, String.data_append, pipe_data, mk_data]
    rw [hdata]
    show List.foldl step _ ('|' :: (escQuote f.data ++ ['|']) ++ ['\r', '\n']) = _
    simp only [List.cons_append, List.foldl_cons, List.append_assoc]
    rw [step_start_pipe, List.foldl_append, foldl_escQuote]
    simp only [List.nil_append, List.foldl_cons, List.foldl_nil]
    rw [step_quoted_pipe, step_qq_cr, step_crEnd_nl, data_mk]
  · by_cases hf : f = ""
    · have hcur : cur ≠ [] := fun hnil => (h hnil) hf
      subst hf
      show List.foldl step _ ['\r', '\n'] = _
      simp only [List.foldl_cons, List.foldl_nil]
      rw [step_start_cr_flush recs cur hcur, step_crEnd_nl]
    · have hne : f.data ≠ [] := by
        intro hnil
        apply hf
        have : String.mk f.data = String.mk [] := by rw [hnil]
        simpa [data_mk] using this
      obtain ⟨c, cs, hd⟩ : ∃ c cs, f.data = c :: cs := by
        cases h : f.data with
        | nil => exact absurd h hne
        | cons c cs => exact ⟨c, cs, rfl⟩
      have hclean := needsQuoting_spec (by simpa using hq)
      have hc := hclean c (by simp [hd])
      have hdata : (encodeField f).data = c :: cs := by
        simp [encodeField, hq, hd]
      rw [hdata]
      simp only [List.cons_append, List.foldl_cons]
      rw [step_start_other recs cur c hc.2.1 hc.1 hc.2.2.1 hc.2.2.2]
      rw [List.foldl_append]
      rw [foldl_unquoted cs recs cur [c]
        (fun x hx => by
          have := hclean x (by simp [hd, hx])
          exact ⟨this.1, this.2.2.1, this.2.2.2⟩)]
      simp only [List.foldl_cons, List.foldl_nil]
      rw [step_unq_cr, step_crEnd_nl]
      have : String.mk ([c] ++ cs) = f := by
        rw [show [c] ++ cs = f.data by simp [hd]]
      rw [this]

/-- Processing a comma-joined non-empty field list followed by the record
terminator closes the record with exactly those fields appended. -/
theorem foldl_encodeFields (fs : List String) : ∀ (f : String) (recs : List (List String))
    (cur : List String), (cur = [] → f :: fs ≠ [""]) →
    List.foldl step ⟨recs, cur, [], .fieldStart⟩
      ((pyJoin "," ((f :: fs).map encodeField)).data ++ ['\r', '\n']) =
      ⟨recs ++ [cur ++ f :: fs], [], [], .fieldStart⟩ := by
  induction fs with
  | nil =>
    intro f recs cur h
    show List.foldl step _ ((encodeField f).data ++ ['\r', '\n']) = _
    apply foldl_encodeField_crlf f recs cur
    intro hcur hf
    exact (h hcur) (by rw [hf])
  | cons g gs ih =>
    intro f recs cur _
    have hjoin : (pyJoin "," ((f :: g :: gs).map encodeField)).data =
        ((encodeField f).data ++ [',']) ++ (pyJoin "," ((g :: gs).map encodeField)).data := by
      show (pyJoin "," (encodeField f :: (g :: gs).map encodeField)).data = _
      rw [show pyJoin "," (encodeField f :: (g :: gs).map encodeField) =
          encodeField f ++ "," ++ pyJoin "," ((g :: gs).map encodeField) by
        cases hgs : (g :: gs).map encodeField with
        | nil => simp at hgs
        | cons a as => simp [pyJoin]]
      simp [String.data_append, comma_data]
    rw [hjoin, List.append_assoc, List.foldl_append, foldl_encodeField_comma]
    rw [ih g recs (cur ++ [f]) (by simp)]
    simp

/-- Processing one encoded record plus terminator appends that record. -/
theorem foldl_encodeRow (r : List String) (recs : List (List String)) :
    List.foldl step ⟨recs, [], [], .fieldStart⟩ ((encodeRow r).data ++ ['\r', '\n']) =
      ⟨recs ++ [r], [], [], .fieldStart⟩ := by
  by_cases hr : r = [""]
  · subst hr
    have : (encodeRow [""]).data = ['|', '|'] := by simp [encodeRow]
    rw [this]
    show List.foldl step _ ['|', '|', '\r', '\n'] = _
    simp only [List.foldl_cons, List.foldl_nil]
    rw [step_start_pipe, step_quoted_pipe, step_qq_cr, step_crEnd_nl]
    rfl
  · cases r with
    | nil =>
      have : (encodeRow []).data = [] := by simp [encodeRow, pyJoin]
      rw [this]
      show List.foldl step _ ['\r', '\n'] = _
      simp only [List.nil_append, List.foldl_cons, List.foldl_nil]
      rw [step_start_cr_blank, step_crBlank_nl]
    | cons f fs =>
      have : encodeRow (f :: fs) = pyJoin "," ((f :: fs).map encodeField) := by
        simp [encodeRow, hr]
      rw [this]
      exact foldl_encodeFields fs f recs [] (fun _ => hr)

/-- Processing the whole written file appends all its records in order. -/
theorem foldl_writeRows (rows : List (List String)) : ∀ recs : List (List String),
    List.foldl step ⟨recs, [], [], .fieldStart⟩
      (strConcat (rows.map (fun r => encodeRow r ++ "\r\n"))).data =
      ⟨recs ++ rows, [], [], .fieldStart⟩ := by
  induction rows with
  | nil =>
    intro recs
    simp [strConcat]
  | cons r rows ih =>
    intro recs
    show List.foldl step _ ((encodeRow r ++ "\r\n" ++ strConcat _).data) = _
    rw [show (encodeRow r ++ "\r\n" ++ strConcat (rows.map (fun r => encodeRow r ++ "\r\n"))).data
        = ((encodeRow r).data ++ ['\r', '\n']) ++
          (strConcat (rows.map (fun r => encodeRow r ++ "\r\n"))).data by
      simp [String.data_append, crlf_data]]
    rw [List.foldl_append, foldl_encodeRow, ih]
    simp

/-- A concrete sentence stream: call `i` returns the decimal text of `i`. -/
def exStream : Nat → String := fun i => toString i

/-- A concrete clock stream. -/
def exClock : Nat → Nat := fun i => 1700000000 + i

/-! ### Decimal representations of naturals -/

/-- A string that parses as a non-negative integer: non-empty, all digits. -/
def parsesAsNat (s : String) : Bool :=
  !s.data.isEmpty && s.data.all Char.isDigit

theorem digitChar_isDigit {m : Nat} (h : m < 10) : (Nat.digitChar m).isDigit = true := by
  have hall : ∀ m' : Nat, m' < 10 → (Nat.digitChar m').isDigit = true := by decide
  exact hall m h

theorem toDigitsCore_digits :
    ∀ (fuel n : Nat) (ds : List Char), (∀ c ∈ ds, c.isDigit = true) →
      ∀ c ∈ Nat.toDigitsCore 10 fuel n ds, c.isDigit = true := by
  intro fuel
  induction fuel with
  | zero => intro n ds hds c hc; exact hds c hc
  | succ fuel ih =>
    intro n ds hds c hc
    rw [Nat.toDigitsCore] at hc
    have hdig : (Nat.digitChar (n % 10)).isDigit = true :=
      digitChar_isDigit (Nat.mod_lt n (by omega))
    by_cases hz : n / 10 = 0
    · rw [if_pos hz] at hc
      rcases List.mem_cons.mp hc with h | h
      · rw [h]; exact hdig
      · exact hds c h
    · rw [if_neg hz] at hc
      exact ih (n / 10) (Nat.digitChar (n % 10) :: ds)
        (fun x hx => by
          rcases List.mem_cons.mp hx with h | h
          · rw [h]; exact hdig
          · exact hds x h) c hc

theorem toDigitsCore_ne_nil :
    ∀ (fuel n : Nat) (ds : List Char), fuel ≠ 0 ∨ ds ≠ [] →
      Nat.toDigitsCore 10 fuel n ds ≠ [] := by
  intro fuel
  induction fuel with
  | zero =>
    intro n ds h
    rcases h with h | h
    · exact absurd rfl h
    · simpa [Nat.toDigitsCore] using h
  | succ fuel ih =>
    intro n ds _
    rw [Nat.toDigitsCore]
    by_cases hz : n / 10 = 0
    · rw [if_pos hz]; simp
    · rw [if_neg hz]
      exact ih (n / 10) _ (Or.inr (by simp))

/-- The decimal text of a natural number parses back as a number. -/
theorem parsesAsNat_toString (n : Nat) : parsesAsNat (toString n) = true := by
  have hd : (toString n).data = Nat.toDigits 10 n := rfl
  unfold parsesAsNat
  rw [hd]
  apply Bool.and_eq_true_iff.mpr
  constructor
  · have := toDigitsCore_ne_nil (n + 1) n [] (Or.inl (by omega))
    rw [Nat.toDigits] at *
    simpa [List.isEmpty_iff] using this
  · rw [List.all_eq_true]
    exact toDigitsCore_digits (n + 1) n [] (by intro c hc; simp at hc)

/-! ### The driver sweep (`src/main.py` lines 150-176) -/

/-- The `f'./{DIRECTORY_NAME}/{r_c}_{c_c}_{filling}'` base path; Python
formats the boolean flag as `True` / `False`. -/
def basePath (r_c c_c : Nat) (filling : Bool) : String :=
  "./" ++ DIRECTORY_NAME ++ "/" ++ toString r_c ++ "_" ++ toString c_c ++ "_" ++
    (if filling then "True" else "False")

/-- Every `(row_count, column_count, filling)` combination the driver
iterates, in loop order: `range(ROW_COUNT_MIN, ROW_COUNT_MAX)` outer,
`range(COLUMNS_COUNT_MIN, COLUMNS_COUNT_MAX)` inner, `[True, False]` innermost. -/
def driverCombos : List (Nat × Nat × Bool) :=
  (List.range' ROW_COUNT_MIN (ROW_COUNT_MAX - ROW_COUNT_MIN)).flatMap (fun r =>
    (List.range' COLUMNS_COUNT_MIN (COLUMNS_COUNT_MAX - COLUMNS_COUNT_MIN)).flatMap (fun c =>
      [true, false].map (fun f => (r, c, f))))

/-- The artifact pair (PDF path, CSV path) written for each combination. -/
def driverOutputs : List (String × String) :=
  driverCombos.map (fun t =>
    (basePath t.1 t.2.1 t.2.2 ++ ".pdf", basePath t.1 t.2.1 t.2.2 ++ ".csv"))

/-! ## The claims -/

/-- Claim C1: for every `row_count ≥ 0`, `column_count ≥ 0` and either
filling mode, `generate_data` returns a table with exactly `row_count`
rows, each row a list of exactly `column_count` cell strings. -/
theorem generate_data_shape (number_of_rows number_of_columns : Nat)
    (filling_is_sentences : Bool) (s : Nat → String) (k : Nat → Nat) :
    (generate_data number_of_rows number_of_columns filling_is_sentences s k).length =
      number_of_rows ∧
    ∀ row ∈ generate_data number_of_rows number_of_columns filling_is_sentences s k,
      row.length = number_of_columns := by
  constructor
  · simp [generate_data]
  · intro row hrow
    simp only [generate_data, List.mem_map, List.mem_range] at hrow
    obtain ⟨r, _, rfl⟩ := hrow
    simp

/-- Witness for C1 at `row_count = 2`, `column_count = 3`. -/
theorem generate_data_shape_witness :
    (generate_data 2 3 true exStream exClock).length = 2 ∧
      (["0", "1", "2"] : List String).length = 3 :=
  ⟨(generate_data_shape 2 3 true exStream exClock).1,
   (generate_data_shape 2 3 true exStream exClock).2 ["0", "1", "2"] (by decide)⟩

/-- Claim C2: parsing the CSV text written by the driver (comma-delimited,
quote character `|`, minimal quoting, `\r\n` record ends, as written by
`csv.writer`) yields exactly the title row followed by the table's rows in
order, every cell preserved exactly — a full round trip, for every table
and title row. -/
theorem csv_round_trip (table_title : List String) (table_data : List (List String)) :
    parseCSV (writeCSV table_title table_data) = table_title :: table_data := by
  unfold parseCSV writeCSV
  rw [foldl_writeRows (table_title :: table_data) []]
  simp [finalizeCsv]

/-- Claim C3: `get_table_title n` is deterministic (it is a pure function
of its arguments) and is exactly `["title0", ..., "title{n-1}"]`. -/
theorem get_table_title_form (number_of_columns : Nat) (title_generic_name : String) :
    (get_table_title number_of_columns title_generic_name).length = number_of_columns ∧
    ∀ i, i < number_of_columns →
      (get_table_title number_of_columns title_generic_name)[i]? =
        some (title_generic_name ++ toString i) := by
  constructor
  · simp [get_table_title]
  · intro i h
    simp [get_table_title, List.getElem?_range h]

/-- Witness for C3 at `n = 3`. -/
theorem get_table_title_form_witness :
    (get_table_title 3 "title").length = 3 ∧
      (get_table_title 3 "title")[1]? = some ("title" ++ toString 1) :=
  ⟨(get_table_title_form 3 "title").1, (get_table_title_form 3 "title").2 1 (by decide)⟩

/-- Claim C4: the per-column width is `floor(15 / column_count)` and the
schema repeats the bordered fixed-width column spec once per column inside
border delimiters; concretely, 3 columns give `|p{5cm}|p{5cm}|p{5cm}|` and
7 columns give width 2. -/
theorem schema_width_form :
    (∀ n, 1 ≤ n → n ≤ 7 →
      schemaOf n =
        strConcat (List.replicate n ("|" ++ ("p\x7b" ++ toString (15 / n) ++ "cm\x7d"))) ++
          "|") ∧
    schemaOf 3 = "|p\x7b5cm\x7d|p\x7b5cm\x7d|p\x7b5cm\x7d|" ∧
    cellSchemaOf 7 = "p\x7b2cm\x7d" ∧ table_width_cm / 7 = 2 := by
  refine ⟨?_, by decide, by decide, by decide⟩
  intro n _ _
  simp [schemaOf, get_schema, cellSchemaOf, table_width_cm, strRepeat_eq_concat_replicate]

/-- Witness for C4 at `n = 5`. -/
theorem schema_width_form_witness :
    schemaOf 5 =
      strConcat (List.replicate 5 ("|" ++ ("p\x7b" ++ toString (15 / 5) ++ "cm\x7d"))) ++ "|" :=
  schema_width_form.1 5 (by decide) (by decide)

/-- Counterexample to claim C5: `get_text` does NOT concatenate
independently generated sentences — `lorem.sentence()` is called once and
the string is repeated.  On the stream `i ↦ toString i` starting at call
counter 0, `get_text 2` returns `"00"` after one generator call, while the
claimed behaviour (`get_text_indep`) returns `"01"` after two calls. -/
theorem get_text_counterexample :
    get_text 2 exStream 0 ≠ get_text_indep 2 exStream 0 ∧
      get_text 2 exStream 0 = ("00", 1) ∧ get_text_indep 2 exStream 0 = ("01", 2) := by
  refine ⟨by decide, by decide, by decide⟩

/-- Amended claim C5: for every `n`, `get_text n` returns one generated
sentence repeated `n` times with no separator, consuming exactly one
sentence from the generator. -/
theorem get_text_repeats_single (number_of_sentences : Nat) (stream : Nat → String)
    (k : Nat) :
    get_text number_of_sentences stream k =
      (strConcat (List.replicate number_of_sentences (stream k)), k + 1) := by
  simp [get_text, strRepeat_eq_concat_replicate]

/-- Claim C6: in the markup produced by `generate_tex_code`, every data-row
line — the last one included — is followed by the row terminator
`' \\ \hline'`: the document contains the block in which each row line is
terminated before the following newline. -/
theorem tex_rows_terminated (table_data : List (List String))
    (table_title_data : List String) (text_before text_after : String)
    (hrows : table_data ≠ []) (htitle : table_title_data ≠ [])
    (hc : texCollisionFree table_data table_title_data text_before) :
    ∃ s1 s2, generate_tex_code table_data table_title_data text_before text_after =
      some (s1 ++
        pyJoin "\n" ((table_data.map rowLineOf).map (fun l => l ++ rowTerm)) ++ s2) := by
  have hlines : table_data.map rowLineOf ≠ [] := by simpa using hrows
  refine ⟨docPre ++ text_before ++ docMid1 ++ tabPre ++ schemaOf table_title_data.length ++
      tabMid1 ++ rowLineOf table_title_data ++ tabMid2,
    "\n" ++ "\\end\x7btabular\x7d\n" ++ docMid2 ++ text_after ++ docSuf, ?_⟩
  rw [generate_tex_code_splice table_data table_title_data text_before text_after htitle hc]
  apply congrArg some
  apply string_ext
  have key := congrArg String.data
    (pyJoin_term rowTerm "\n"
      ("\n" ++ "\\end\x7btabular\x7d\n" ++ docMid2 ++ text_after ++ docSuf)
      (table_data.map rowLineOf) hlines)
  simp only [String.data_append, List.append_assoc] at key
  simp only [texTableAssembled, texRowsOf, tabSuf, String.data_append, List.append_assoc]
  rw [key]

/-- Witness for C6 at a concrete two-row table. -/
theorem tex_rows_terminated_witness :
    ∃ s1 s2, generate_tex_code [["a", "b"], ["c", "d"]] ["t1", "t2"] "x" "y" =
      some (s1 ++
        pyJoin "\n"
          ((([["a", "b"], ["c", "d"]] : List (List String)).map rowLineOf).map
            (fun l => l ++ rowTerm)) ++ s2) :=
  tex_rows_terminated [["a", "b"], ["c", "d"]] ["t1", "t2"] "x" "y"
    (by decide) (by decide) (by decide)

/-- Counterexample to claim C7: with one row and zero columns the returned
table is `[[]]` — one (empty) row — not the table with no rows. -/
theorem generate_data_zero_columns_counterexample :
    generate_data 1 0 false exStream exClock ≠ [] ∧
      generate_data 1 0 false exStream exClock = [[]] := by
  refine ⟨by decide, by decide⟩

/-- Amended claim C7: `generate_data` accepts any non-negative counts with
no error; zero rows yield the table with no rows, and zero columns yield a
table of `row_count` empty rows (so in either case the table has no cells). -/
theorem generate_data_zero_shape (number_of_rows number_of_columns : Nat)
    (filling_is_sentences : Bool) (s : Nat → String) (k : Nat → Nat) :
    (number_of_rows = 0 →
      generate_data number_of_rows number_of_columns filling_is_sentences s k = []) ∧
    (number_of_columns = 0 →
      generate_data number_of_rows number_of_columns filling_is_sentences s k =
        List.replicate number_of_rows []) := by
  constructor
  · rintro rfl
    simp [generate_data]
  · rintro rfl
    simp [generate_data]

/-- Witness for the amended C7 at rows = 0 and at columns = 0. -/
theorem generate_data_zero_shape_witness :
    generate_data 0 3 true exStream exClock = [] ∧
      generate_data 2 0 true exStream exClock = List.replicate 2 [] :=
  ⟨(generate_data_zero_shape 0 3 true exStream exClock).1 rfl,
   (generate_data_zero_shape 2 0 true exStream exClock).2 rfl⟩

/-- Claim C8: the driver sweep iterates exactly row counts 2..9, column
counts 2..7 and both filling modes, and the artifact pair of a combination
sits at `./tables/{row}_{column}_{flag}` with `.pdf` and `.csv` extensions;
no other combination is produced. -/
theorem driver_sweep :
    (∀ r c f, ((r, c, f) ∈ driverCombos) ↔ (2 ≤ r ∧ r ≤ 9 ∧ 2 ≤ c ∧ c ≤ 7)) ∧
    (∀ pr : String × String, pr ∈ driverOutputs ↔
      ∃ r c f, (2 ≤ r ∧ r ≤ 9 ∧ 2 ≤ c ∧ c ≤ 7) ∧
        pr = (basePath r c f ++ ".pdf", basePath r c f ++ ".csv")) := by
  have hmem : ∀ r c f, ((r, c, f) ∈ driverCombos) ↔ (2 ≤ r ∧ r ≤ 9 ∧ 2 ≤ c ∧ c ≤ 7) := by
    intro r c f
    unfold driverCombos ROW_COUNT_MIN ROW_COUNT_MAX COLUMNS_COUNT_MIN COLUMNS_COUNT_MAX
    simp only [List.mem_flatMap, List.mem_map, List.mem_range', List.mem_cons,
      List.not_mem_nil, or_false, Prod.mk.injEq]
    constructor
    · rintro ⟨a, ⟨i, hi, rfl⟩, b, ⟨j, hj, rfl⟩, g, hg, rfl, rfl, rfl⟩
      omega
    · rintro ⟨h1, h2, h3, h4⟩
      exact ⟨r, ⟨r - 2, by omega, by omega⟩, c, ⟨c - 2, by omega, by omega⟩, f,
        by cases f <;> simp, rfl, rfl, rfl⟩
  refine ⟨hmem, ?_⟩
  intro pr
  unfold driverOutputs
  simp only [List.mem_map]
  constructor
  · rintro ⟨⟨r, c, f⟩, ht, rfl⟩
    exact ⟨r, c, f, (hmem r c f).mp ht, rfl⟩
  · rintro ⟨r, c, f, hb, rfl⟩
    exact ⟨(r, c, f), (hmem r c f).mpr hb, rfl⟩

/-- Witness for C8: the first combination and its artifact pair. -/
theorem driver_sweep_witness :
    ((2, 2, false) ∈ driverCombos) ∧
      (("./tables/2_2_False.pdf", "./tables/2_2_False.csv") ∈ driverOutputs) := by
  constructor
  · exact (driver_sweep.1 2 2 false).mpr (by decide)
  · exact (driver_sweep.2 ("./tables/2_2_False.pdf", "./tables/2_2_False.csv")).mpr
      ⟨2, 2, false, by decide, by decide⟩

/-- Claim C9: in timestamp mode every cell is the decimal string of a
whole-second Unix time (the clock stream, non-negative by hypothesis), and
parses as a non-negative integer. -/
theorem timestamp_cells_numeric (number_of_rows number_of_columns : Nat)
    (s : Nat → String) (clock_stream : Nat → Nat) (row : List String) (cell : String)
    (hrow : row ∈ generate_data number_of_rows number_of_columns false s clock_stream)
    (hcell : cell ∈ row) :
    (∃ t : Nat, cell = toString (clock_stream t)) ∧ parsesAsNat cell = true := by
  simp only [generate_data, Bool.false_eq_true, if_false, List.mem_map,
    List.mem_range] at hrow
  obtain ⟨r, _, rfl⟩ := hrow
  simp only [List.mem_map, List.mem_range] at hcell
  obtain ⟨c, _, rfl⟩ := hcell
  exact ⟨⟨r * number_of_columns + c, rfl⟩, parsesAsNat_toString _⟩

/-- Witness for C9 at a 1 by 1 table read off the example clock. -/
theorem timestamp_cells_numeric_witness :
    (∃ t : Nat, "1700000000" = toString (exClock t)) ∧
      parsesAsNat "1700000000" = true :=
  timestamp_cells_numeric 1 1 exStream exClock ["1700000000"] "1700000000"
    (by decide) (by decide)

/-- Claim C10: `generate_tex_code` divides the fixed width 15 by the title
row's length, so the empty title row hits the division-by-zero error
(modelled as `none`); any non-empty title row avoids it, and the schema in
the produced document is built from the title row's length, never from the
table rows. -/
theorem tex_code_title_guard :
    (∀ (table_data : List (List String)) (text_before text_after : String),
      generate_tex_code table_data [] text_before text_after = none) ∧
    (∀ (table_data : List (List String)) (table_title_data : List String)
      (text_before text_after : String), table_title_data ≠ [] →
      (generate_tex_code table_data table_title_data text_before text_after).isSome = true) ∧
    (∀ (table_data : List (List String)) (table_title_data : List String)
      (text_before text_after : String), table_title_data ≠ [] →
      texCollisionFree table_data table_title_data text_before →
      generate_tex_code table_data table_title_data text_before text_after =
        some (docPre ++ text_before ++ docMid1 ++ tabPre ++
          get_schema table_title_data.length (cellSchemaOf table_title_data.length) ++
          tabMid1 ++ rowLineOf table_title_data ++ tabMid2 ++ texRowsOf table_data ++
          tabSuf ++ docMid2 ++ text_after ++ docSuf)) := by
  refine ⟨?_, ?_, ?_⟩
  · intro table_data text_before text_after
    simp [generate_tex_code]
  · intro table_data table_title_data text_before text_after htitle
    have hlen : table_title_data.length ≠ 0 := by
      simpa [List.length_eq_zero] using htitle
    simp [generate_tex_code, hlen]
  · intro table_data table_title_data text_before text_after htitle hc
    rw [generate_tex_code_splice table_data table_title_data text_before text_after htitle hc]
    apply congrArg some
    apply string_ext
    simp [texTableAssembled, schemaOf, String.data_append, List.append_assoc]

/-- Witness for C10 at concrete inputs. -/
theorem tex_code_title_guard_witness :
    generate_tex_code [["a"]] [] "b" "d" = none ∧
    (generate_tex_code [["a"]] ["t"] "b" "d").isSome = true ∧
    generate_tex_code [["a"]] ["t"] "b" "d" =
      some (docPre ++ "b" ++ docMid1 ++ tabPre ++
        get_schema (["t"] : List String).length (cellSchemaOf (["t"] : List String).length) ++
        tabMid1 ++ rowLineOf ["t"] ++ tabMid2 ++ texRowsOf [["a"]] ++
        tabSuf ++ docMid2 ++ "d" ++ docSuf) :=
  ⟨tex_code_title_guard.1 [["a"]] "b" "d",
   tex_code_title_guard.2.1 [["a"]] ["t"] "b" "d" (by decide),
   tex_code_title_guard.2.2 [["a"]] ["t"] "b" "d" (by decide) (by decide)⟩

end TablesGen
